import Mathlib

/-!
# Verification of the `nxus-queued-task` task-state synchronization core

Shallow embedding of the queued-task module (richer variant in the main
module file; the simpler variant lives in `src/index.js`).  JavaScript
objects used as string-keyed dictionaries (`taskData`, `taskResults`) are
modelled as association lists; `Object.assign(target, source)` is modelled
by `objAssign`, whose lookup gives source keys priority.  JavaScript
numbers are modelled as rationals, dates/timestamps as integers
(milliseconds).  `undefined`/`null` are modelled with `Option`.  A
JavaScript `TypeError` thrown by dereferencing `undefined` is modelled as
an `Except.error`.
-/

/-- JSON-ish value stored in `taskData` / `taskResults` objects. -/
inductive JVal where
  | str : String → JVal
  | num : ℚ → JVal
  | jbool : Bool → JVal
  | jnull : JVal
deriving DecidableEq, Repr

/-- A JavaScript object used as a dictionary: ordered key/value pairs. -/
abbrev Obj := List (String × JVal)

/-- Property lookup on an object (first binding wins, as in our
`objAssign` normal form). -/
def objLookup (o : Obj) (k : String) : Option JVal :=
  (o.find? (fun e => decide (e.1 = k))).map Prod.snd

/-- `Object.assign(target, source)`: result holds every key of `source`
with `source`'s value, and every key of `target` not in `source` with
`target`'s value. -/
def objAssign (target source : Obj) : Obj :=
  target.filter (fun e => (objLookup source e.1).isNone) ++ source

/-- Durable `QueuedTask` record (`models/QueuedTask.js`, richer variant),
plus the store's implicit `updatedAt` modification timestamp. -/
structure TaskRecord where
  id : String
  name : String
  jobId : String
  progress : ℚ
  completed : Bool
  taskData : Option Obj
  taskResults : Option Obj
  lifespan : ℤ
  route : Option String
  expiresAt : Option ℤ
  updatedAt : ℤ
deriving DecidableEq, Repr

/-- Task state object (`taskStateProperties` = id, name, jobId, progress,
completed, timestamp, lifespan, route, taskData, taskResults), produced
by `_adjustTaskState`: the record's fields plus
`timestamp = entity.updatedAt.valueOf()`.  `expiresAt` is not included. -/
structure TaskState where
  id : String
  name : String
  jobId : String
  progress : ℚ
  completed : Bool
  timestamp : ℤ
  lifespan : ℤ
  route : Option String
  taskData : Option Obj
  taskResults : Option Obj
deriving DecidableEq, Repr

/-- `_adjustTaskState(entity)`: pick the task-state properties and derive
`timestamp` from the store's modification time. -/
def adjustTaskState (entity : TaskRecord) : TaskState :=
  { id := entity.id
    name := entity.name
    jobId := entity.jobId
    progress := entity.progress
    completed := entity.completed
    timestamp := entity.updatedAt
    lifespan := entity.lifespan
    route := entity.route
    taskData := entity.taskData
    taskResults := entity.taskResults }

/-- The untyped `properties` / `data` object passed to the update
operations: any subset of the mutable record fields.  `none` means the
property is absent (`undefined`). -/
structure Patch where
  progress : Option ℚ := none
  completed : Option Bool := none
  taskData : Option Obj := none
  taskResults : Option Obj := none
  jobId : Option String := none
  route : Option String := none
  expiresAt : Option ℤ := none
deriving DecidableEq, Repr

/-- Applying an update `data` object to a stored record; the store stamps
`updatedAt` with the current time. -/
def applyPatch (r : TaskRecord) (p : Patch) (now : ℤ) : TaskRecord :=
  { r with
    progress := p.progress.getD r.progress
    completed := p.completed.getD r.completed
    taskData := match p.taskData with
      | some d => some d
      | none => r.taskData
    taskResults := match p.taskResults with
      | some d => some d
      | none => r.taskResults
    jobId := p.jobId.getD r.jobId
    route := match p.route with
      | some s => some s
      | none => r.route
    expiresAt := match p.expiresAt with
      | some e => some e
      | none => r.expiresAt
    updatedAt := now }

/-- The persistent store of `QueuedTask` records. -/
abbrev Store := List TaskRecord

/-- `models.QueuedTask.findOne(id)`. -/
def findOne (store : Store) (id : String) : Option TaskRecord :=
  store.find? (fun r => decide (r.id = id))

/-- `models.QueuedTask.update({id}, properties)`: update every matching
record; return the new store and `rslts[0]`, the first updated record. -/
def storeUpdate (store : Store) (now : ℤ) (id : String) (p : Patch) :
    Store × Option TaskRecord :=
  (store.map (fun r => if r.id = id then applyPatch r p now else r),
   (findOne store id).map (fun r => applyPatch r p now))

/-- `getTaskState(id)`: `rslt && this._adjustTaskState(rslt)` — absent
record gives `none` (an absent signal, not an exception). -/
def getTaskState (store : Store) (id : String) : Option TaskState :=
  (findOne store id).map adjustTaskState

/-- `_updateTaskState(id, properties)`: raw store update followed by
`_adjustTaskState(rslts[0])`; when no record matches, `rslts[0]` is
`undefined` and `_adjustTaskState` throws dereferencing `updatedAt`. -/
def updateTaskStateRaw (store : Store) (now : ℤ) (id : String) (p : Patch) :
    Except String (Store × TaskState) :=
  match storeUpdate store now id p with
  | (store', some r) => .ok (store', adjustTaskState r)
  | (_, none) => .error "TypeError: cannot read updatedAt of undefined"

/-- The initiation-path route stamp in `_requestHandler`:
`this._updateTaskState(state.id, {route})` — a raw update whose `data`
object holds only `route`. -/
def stampRoute (store : Store) (now : ℤ) (id : String) (route : String) :
    Except String (Store × TaskState) :=
  updateTaskStateRaw store now id { route := some route }

/-- Process-local queue binding (`this._queues[name]`) together with the
state of the Bull job reached through `spec.queue.getJob(state.jobId)`:
the job's recorded `_progress`, the task id stored in `job.data.id`, and
whether `_setupQueue` installed the `global:progress` listener that
re-emits `queued-task-progress`. -/
structure QueueSpec where
  jobProgress : ℚ
  jobTaskId : Option String
  listenerInstalled : Bool

/-- The queue registry `this._queues`. -/
abbrev QueueEnv := String → Option QueueSpec

/-- Whether a `queued-task-progress` notification results from an
`updateTaskState` call (lines 267–276 of the main module, together with
the `_setupQueue` listener): a truthy `data.progress`, a known queue
binding, a scaled progress differing from the job's recorded
`_progress` (only then is `job.progress()` invoked and a
`global:progress` event produced), an installed listener, a job payload
carrying a task id, and a record found for that id. -/
def notifyEmitted (env : QueueEnv) (store' : Store) (data : Patch)
    (state' : TaskState) : Bool :=
  match data.progress with
  | none => false
  | some p =>
    if p = 0 then false
    else match env state'.name with
      | none => false
      | some spec =>
        if p * 100 ≠ spec.jobProgress then
          spec.listenerInstalled &&
            (match spec.jobTaskId with
             | some tid => (getTaskState store' tid).isSome
             | none => false)
        else false

/-- `if (data.taskData && state.taskData) data.taskData =
Object.assign(state.taskData, data.taskData)`. -/
def mergeTaskData (data : Patch) (state : TaskState) : Patch :=
  match data.taskData, state.taskData with
  | some d, some sd => { data with taskData := some (objAssign sd d) }
  | _, _ => data

/-- `if (data.taskResults && state.taskResults) data.taskResults =
Object.assign(state.taskResults, data.taskResults)`. -/
def mergeTaskResults (data : Patch) (state : TaskState) : Patch :=
  match data.taskResults, state.taskResults with
  | some d, some sr => { data with taskResults := some (objAssign sr d) }
  | _, _ => data

/-- `if (data.taskData || data.taskResults) { ...merge both... }`. -/
def mergeData (data : Patch) (state : TaskState) : Patch :=
  if data.taskData.isSome || data.taskResults.isSome then
    mergeTaskResults (mergeTaskData data state) state
  else data

/-- `if (data.progress !== undefined) data.completed =
data.progress >= 1.0`. -/
def deriveCompleted (data : Patch) : Patch :=
  match data.progress with
  | some p => { data with completed := some (decide ((1 : ℚ) ≤ p)) }
  | none => data

/-- Assembly of the `data` object inside `updateTaskState` (merge of
`taskData` / `taskResults`, derived `completed`, recomputed
`expiresAt = new Date(Date.now() + state.lifespan)`), given the current
`state` and the current time. -/
def assembleData (properties : Patch) (state : TaskState) (now : ℤ) : Patch :=
  { deriveCompleted (mergeData properties state) with
    expiresAt := some (now + state.lifespan) }

/-- `updateTaskState(id, properties)` (richer variant).  Dereferences the
fetched state unguardedly (for the merge and for `state.lifespan`), so an
absent record raises a `TypeError`.  Returns the new store, the updated
task state, and whether a `queued-task-progress` notification results. -/
def updateTaskState (env : QueueEnv) (store : Store) (now : ℤ) (id : String)
    (properties : Patch) : Except String (Store × TaskState × Bool) :=
  match getTaskState store id with
  | none => .error "TypeError: cannot read lifespan of undefined"
  | some state =>
    let data := assembleData properties state now
    match updateTaskStateRaw store now id data with
    | .error e => .error e
    | .ok (store', state') =>
      .ok (store', state', notifyEmitted env store' data state')

/-- `finalTaskProperties = {progress: 1.0, completed: true}`, overlaid on
the handler's result by `Object.assign({}, rslt, finalTaskProperties)`. -/
def finalTaskProperties (p : Patch) : Patch :=
  { p with progress := some 1, completed := some true }

/-- `{taskResults: {msg: err.message, severity: 'error'}}` produced by the
worker's rejection handler. -/
def errorResults (msg : String) : Obj :=
  [("msg", JVal.str msg), ("severity", JVal.str "error")]

/-- One job execution of the worker registered by
`createTaskQueue(name, handler)`: load the task state by `job.data.id`,
run the handler (whose settled outcome is `handlerResult`: resolved
partial properties or a rejection message), convert a rejection into
`{taskResults: {msg, severity: 'error'}}`, overlay
`finalTaskProperties`, and persist via `updateTaskState`. -/
def runWorkerJob (env : QueueEnv) (store : Store) (now : ℤ) (taskId : String)
    (handlerResult : Except String Patch) :
    Except String (Store × TaskState × Bool) :=
  match getTaskState store taskId with
  | none => .error "TypeError: cannot read id of undefined"
  | some state =>
    let rslt : Patch :=
      match handlerResult with
      | .ok r => r
      | .error msg => { taskResults := some (errorResults msg) }
    updateTaskState env store now state.id (finalTaskProperties rslt)

/-- `responseTaskProperties = ['id', 'progress', 'taskResults',
'completed', 'timestamp']`: the only fields a client-facing task object
may carry.  The synthesized fallback carries only `progress` and
`completed`, hence the `Option` fields. -/
structure RespTask where
  id : Option String
  progress : ℚ
  taskResults : Option Obj
  completed : Bool
  timestamp : Option ℤ
deriving DecidableEq, Repr

/-- `pick(state, responseTaskProperties)`. -/
def packageState (st : TaskState) : RespTask :=
  { id := some st.id
    progress := st.progress
    taskResults := st.taskResults
    completed := st.completed
    timestamp := some st.timestamp }

/-- The synthesized terminal view `{progress: 1.0, completed: true}` sent
when the resolved state is absent. -/
def fallbackTask : RespTask :=
  { id := none, progress := 1, taskResults := none, completed := true,
    timestamp := none }

/-- `taskProgressLimit = 20 * 1000` milliseconds. -/
def taskProgressLimit : ℤ := 20 * 1000

/-- `isChanged(state, timestamp)` from `_requestHandler`. -/
def isChanged (state : Option TaskState) (timestamp : ℤ) : Bool :=
  match state with
  | none => true
  | some st => st.completed || decide (st.timestamp > timestamp)

/-- Outcome of one status poll: HTTP status (`200`, or `400` after
`res.status(400)`), the JSON `task` body, the time (ms after arrival) at
which the response promise settles, and how many times the handler
suspended. -/
structure PollResult where
  status : ℕ
  body : RespTask
  settleTime : ℤ
  suspensions : ℕ
deriving DecidableEq, Repr

/-- The status-poll branch of `_requestHandler` (request body carries a
task `id`; `timestamp` is the client checkpoint, defaulted to 0).
`events` is the arrival-ordered schedule of `queued-task-progress`
notifications, each with its arrival time; the `Promise.race` of the
`taskProgressLimit` timer against the filtered listener settles on the
first qualifying event strictly before the timer, and otherwise on the
timer with the stale state.  Polling an id with no backing record
dereferences `state.route` on `undefined` and throws. -/
def pollHandler (store : Store) (route : String) (taskId : String)
    (timestamp : ℤ) (events : List (ℤ × TaskState)) :
    Except String PollResult :=
  match getTaskState store taskId with
  | none => .error "TypeError: cannot read route of undefined"
  | some state =>
    if state.route ≠ some route then
      .ok { status := 400, body := fallbackTask, settleTime := 0, suspensions := 0 }
    else if isChanged (some state) timestamp then
      .ok { status := 200, body := packageState state, settleTime := 0, suspensions := 0 }
    else
      match events.find? (fun e =>
          decide (e.2.id = taskId) && isChanged (some e.2) timestamp &&
            decide (e.1 < taskProgressLimit)) with
      | some e =>
        .ok { status := 200, body := packageState e.2, settleTime := e.1, suspensions := 1 }
      | none =>
        .ok { status := 200, body := packageState state,
              settleTime := taskProgressLimit, suspensions := 1 }

/-! ## Concrete fixtures used by witnesses and counterexamples -/

/-- A stored task: half done, not completed, route `/task`, job progress
mirrored at 50%. -/
def rec0 : TaskRecord :=
  { id := "t"
    name := "tt"
    jobId := "j"
    progress := 1/2
    completed := false
    taskData := some [("count", JVal.num 1), ("mode", JVal.str "a")]
    taskResults := some [("n", JVal.num 3)]
    lifespan := 1000
    route := some "/task"
    expiresAt := some 5000
    updatedAt := 40 }

def store0 : Store := [rec0]

/-- Queue registry binding for task type `tt`: listener installed, job
payload carries the task id, job's recorded native progress is 50. -/
def env0 : QueueEnv := fun n =>
  if n = "tt" then
    some { jobProgress := 50, jobTaskId := some "t", listenerInstalled := true }
  else none

/-- Same record as `rec0` except for `taskData`. -/
def rec9 : TaskRecord := { rec0 with taskData := some [("secret", JVal.str "x")] }

def store9 : Store := [rec9]

/-! ## Helper lemmas -/

theorem objLookup_nil (k : String) : objLookup [] k = none := rfl

theorem objLookup_cons_eq (hd : String × JVal) (l : Obj) (k : String)
    (h : hd.1 = k) : objLookup (hd :: l) k = some hd.2 := by
  unfold objLookup
  rw [List.find?_cons_of_pos _ (by simp [h])]
  rfl

theorem objLookup_cons_ne (hd : String × JVal) (l : Obj) (k : String)
    (h : hd.1 ≠ k) : objLookup (hd :: l) k = objLookup l k := by
  unfold objLookup
  rw [List.find?_cons_of_neg _ (by simp [h])]

theorem objLookup_objAssign (t s : Obj) (k : String) :
    objLookup (objAssign t s) k =
      match objLookup s k with
      | some v => some v
      | none => objLookup t k := by
  induction t with
  | nil =>
    have h0 : objAssign [] s = s := by simp [objAssign]
    rw [h0]
    cases hs : objLookup s k <;> simp [hs, objLookup_nil]
  | cons hd tl ih =>
    by_cases hP : (objLookup s hd.1).isNone = true
    · have hcons : objAssign (hd :: tl) s = hd :: objAssign tl s := by
        simp [objAssign, List.filter_cons, hP]
      by_cases hk : hd.1 = k
      · have hs : objLookup s k = none := by
          rw [← hk]; exact Option.isNone_iff_eq_none.mp hP
        simp only [hcons, hs]
        simp only [objLookup_cons_eq hd (objAssign tl s) k hk,
          objLookup_cons_eq hd tl k hk]
      · rw [hcons, objLookup_cons_ne hd (objAssign tl s) k hk, ih]
        cases hs : objLookup s k with
        | some v => rfl
        | none => rw [objLookup_cons_ne hd tl k hk]
    · have hPf : (objLookup s hd.1).isNone = false := by
        cases h2 : (objLookup s hd.1).isNone with
        | false => rfl
        | true => exact absurd h2 hP
      have hdrop : objAssign (hd :: tl) s = objAssign tl s := by
        simp [objAssign, List.filter_cons, hPf]
      rw [hdrop, ih]
      cases hs : objLookup s k with
      | some v => rfl
      | none =>
        have hk : hd.1 ≠ k := by
          intro hk
          rw [hk] at hPf
          simp [hs] at hPf
        rw [objLookup_cons_ne hd tl k hk]

theorem getTaskState_some {store : Store} {id : String} {st : TaskState}
    (h : getTaskState store id = some st) :
    ∃ rec, findOne store id = some rec ∧ adjustTaskState rec = st ∧ rec.id = id := by
  unfold getTaskState at h
  obtain ⟨rec, hrec, hadj⟩ := Option.map_eq_some'.mp h
  have hrec' : store.find? (fun r => decide (r.id = id)) = some rec := hrec
  have hid := List.find?_some hrec'
  exact ⟨rec, hrec, hadj, by simpa using hid⟩

theorem updateTaskState_eq (env : QueueEnv) (store : Store) (now : ℤ)
    (id : String) (p : Patch) (rec : TaskRecord)
    (hrec : findOne store id = some rec) :
    updateTaskState env store now id p =
      .ok (store.map (fun r =>
            if r.id = id then
              applyPatch r (assembleData p (adjustTaskState rec) now) now
            else r),
          adjustTaskState
            (applyPatch rec (assembleData p (adjustTaskState rec) now) now),
          notifyEmitted env
            (store.map (fun r =>
              if r.id = id then
                applyPatch r (assembleData p (adjustTaskState rec) now) now
              else r))
            (assembleData p (adjustTaskState rec) now)
            (adjustTaskState
              (applyPatch rec (assembleData p (adjustTaskState rec) now) now))) := by
  simp [updateTaskState, getTaskState, hrec, updateTaskStateRaw, storeUpdate]

theorem mergeTaskData_progress (d : Patch) (st : TaskState) :
    (mergeTaskData d st).progress = d.progress := by
  unfold mergeTaskData
  repeat' split
  all_goals rfl

theorem mergeTaskResults_progress (d : Patch) (st : TaskState) :
    (mergeTaskResults d st).progress = d.progress := by
  unfold mergeTaskResults
  repeat' split
  all_goals rfl

theorem mergeData_progress (d : Patch) (st : TaskState) :
    (mergeData d st).progress = d.progress := by
  unfold mergeData
  split
  · rw [mergeTaskResults_progress, mergeTaskData_progress]
  · rfl

theorem deriveCompleted_progress (d : Patch) :
    (deriveCompleted d).progress = d.progress := by
  unfold deriveCompleted
  repeat' split
  all_goals rfl

theorem assembleData_progress (p : Patch) (st : TaskState) (now : ℤ) :
    (assembleData p st now).progress = p.progress := by
  unfold assembleData
  show (deriveCompleted (mergeData p st)).progress = p.progress
  rw [deriveCompleted_progress, mergeData_progress]

theorem assembleData_expiresAt (p : Patch) (st : TaskState) (now : ℤ) :
    (assembleData p st now).expiresAt = some (now + st.lifespan) := rfl

theorem deriveCompleted_completed {d : Patch} {q : ℚ} (hp : d.progress = some q) :
    (deriveCompleted d).completed = some (decide ((1 : ℚ) ≤ q)) := by
  unfold deriveCompleted
  rw [hp]

theorem assembleData_completed {p : Patch} {q : ℚ} (st : TaskState) (now : ℤ)
    (hp : p.progress = some q) :
    (assembleData p st now).completed = some (decide ((1 : ℚ) ≤ q)) := by
  unfold assembleData
  show (deriveCompleted (mergeData p st)).completed = some (decide ((1 : ℚ) ≤ q))
  exact deriveCompleted_completed (by rw [mergeData_progress, hp])

theorem mergeTaskData_taskResults (d : Patch) (st : TaskState) :
    (mergeTaskData d st).taskResults = d.taskResults := by
  unfold mergeTaskData
  repeat' split
  all_goals rfl

theorem mergeTaskResults_taskData (d : Patch) (st : TaskState) :
    (mergeTaskResults d st).taskData = d.taskData := by
  unfold mergeTaskResults
  repeat' split
  all_goals rfl

theorem deriveCompleted_taskData (d : Patch) :
    (deriveCompleted d).taskData = d.taskData := by
  unfold deriveCompleted
  repeat' split
  all_goals rfl

theorem deriveCompleted_taskResults (d : Patch) :
    (deriveCompleted d).taskResults = d.taskResults := by
  unfold deriveCompleted
  repeat' split
  all_goals rfl

theorem mergeTaskResults_taskResults {d : Patch} {upd : Obj} (st : TaskState)
    (hd : d.taskResults = some upd) :
    (mergeTaskResults d st).taskResults =
      some (match st.taskResults with
            | some old => objAssign old upd
            | none => upd) := by
  unfold mergeTaskResults
  cases hs : st.taskResults <;> simp [hd, hs]

theorem assembleData_taskResults {p : Patch} {upd : Obj} (st : TaskState) (now : ℤ)
    (hp : p.taskResults = some upd) :
    (assembleData p st now).taskResults =
      some (match st.taskResults with
            | some old => objAssign old upd
            | none => upd) := by
  unfold assembleData
  show (deriveCompleted (mergeData p st)).taskResults = _
  rw [deriveCompleted_taskResults]
  unfold mergeData
  rw [if_pos (by simp [hp])]
  exact mergeTaskResults_taskResults st (by rw [mergeTaskData_taskResults, hp])

theorem assembleData_taskData {p : Patch} {upd old : Obj} (st : TaskState) (now : ℤ)
    (hp : p.taskData = some upd) (hst : st.taskData = some old) :
    (assembleData p st now).taskData = some (objAssign old upd) := by
  unfold assembleData
  show (deriveCompleted (mergeData p st)).taskData = _
  rw [deriveCompleted_taskData]
  unfold mergeData
  rw [if_pos (by simp [hp])]
  rw [mergeTaskResults_taskData]
  simp [mergeTaskData, hp, hst]

/-! ## Claims -/

/-- C1: for every status-poll request whose task state is unchanged
relative to the client checkpoint, the long-poll handler suspends at most
once and its response settles within the fixed bound
`taskProgressLimit = 20 * 1000` ms, even if no progress notification ever
arrives (the timer branch of the race settles it); it never hangs
indefinitely. -/
theorem c1_long_poll_bounded (store : Store) (route taskId : String)
    (timestamp : ℤ) (events : List (ℤ × TaskState)) (st : TaskState)
    (hfind : getTaskState store taskId = some st)
    (hroute : st.route = some route)
    (hunchanged : isChanged (some st) timestamp = false) :
    ∃ r, pollHandler store route taskId timestamp events = .ok r ∧
      r.settleTime ≤ taskProgressLimit ∧ r.suspensions ≤ 1 := by
  unfold pollHandler
  simp only [hfind]
  rw [if_neg (by simp [hroute])]
  rw [if_neg (by simp [hunchanged])]
  cases hev : events.find? (fun e =>
      decide (e.2.id = taskId) && isChanged (some e.2) timestamp &&
        decide (e.1 < taskProgressLimit)) with
  | some e =>
    have hpred := List.find?_some hev
    simp only [Bool.and_eq_true, decide_eq_true_eq] at hpred
    exact ⟨_, rfl, le_of_lt hpred.2, le_refl 1⟩
  | none =>
    exact ⟨_, rfl, le_refl _, le_refl 1⟩

theorem c1_witness :
    ∃ r, pollHandler store0 "/task" "t" 40 [] = .ok r ∧
      r.settleTime ≤ taskProgressLimit ∧ r.suspensions ≤ 1 :=
  c1_long_poll_bounded store0 "/task" "t" 40 [] (adjustTaskState rec0)
    rfl rfl rfl

/-- C2: the claim says a poll for a task id with no backing record is
answered with the synthesized terminal `{progress: 1.0, completed: true}`
view and no error; in the code the route-mismatch check
`route !== state.route` dereferences the absent state first, so the
handler throws a `TypeError` instead of reaching the synthesizing
fallback (which the dead `!state`/`state ? ... :` branches show was the
intent).  This theorem evaluates the handler at the failing input. -/
theorem c2_absent_record_throws :
    pollHandler [] "/task" "ghost" 0 [] =
      .error "TypeError: cannot read route of undefined" := by
  rfl

/-- C7: a poll for a task whose stored route differs from the route the
poll arrived on gets HTTP status 400 and the constant fallback body,
which carries none of the stored task's data. -/
theorem c7_route_mismatch (store : Store) (route taskId : String)
    (timestamp : ℤ) (events : List (ℤ × TaskState)) (st : TaskState)
    (hfind : getTaskState store taskId = some st)
    (hroute : st.route ≠ some route) :
    pollHandler store route taskId timestamp events =
      .ok { status := 400, body := fallbackTask, settleTime := 0,
            suspensions := 0 } := by
  unfold pollHandler
  simp only [hfind]
  rw [if_pos hroute]

theorem c7_witness :
    pollHandler store0 "/other" "t" 0 [] =
      .ok { status := 400, body := fallbackTask, settleTime := 0,
            suspensions := 0 } :=
  c7_route_mismatch store0 "/other" "t" 0 [] (adjustTaskState rec0)
    rfl (by decide)

/-- C5: after every update that supplies a progress value, the stored
record satisfies `completed == (progress >= 1.0)`. -/
theorem c5_completed_iff_progress (env : QueueEnv) (store : Store) (now : ℤ)
    (id : String) (p : Patch) (q : ℚ) (st : TaskState)
    (hfind : getTaskState store id = some st)
    (hp : p.progress = some q) :
    ∃ store' st' em, updateTaskState env store now id p = .ok (store', st', em) ∧
      st'.progress = q ∧ (st'.completed = true ↔ (1 : ℚ) ≤ q) := by
  obtain ⟨rec, hrec, hadj, hid⟩ := getTaskState_some hfind
  rw [updateTaskState_eq env store now id p rec hrec]
  refine ⟨_, _, _, rfl, ?_, ?_⟩
  · show (assembleData p (adjustTaskState rec) now).progress.getD rec.progress = q
    rw [assembleData_progress, hp]
    rfl
  · show (assembleData p (adjustTaskState rec) now).completed.getD rec.completed
      = true ↔ (1 : ℚ) ≤ q
    rw [assembleData_completed _ _ hp]
    simp

theorem c5_witness :
    ∃ store' st' em,
      updateTaskState env0 store0 100 "t" { progress := some (3/4) }
        = .ok (store', st', em) ∧
      st'.progress = 3/4 ∧ (st'.completed = true ↔ (1 : ℚ) ≤ 3/4) :=
  c5_completed_iff_progress env0 store0 100 "t" { progress := some (3/4) }
    (3/4) (adjustTaskState rec0) rfl rfl

/-- C6: when an update supplies a `taskData` (or `taskResults`) object
and the record already holds one, the persisted value keeps every prior
key not mentioned in the update with its prior value, and takes the
update's value for every key present in the update. -/
theorem c6_merge_preserves_keys (env : QueueEnv) (store : Store) (now : ℤ)
    (id : String) (p : Patch) (st : TaskState)
    (hfind : getTaskState store id = some st) :
    ∃ store' st' em, updateTaskState env store now id p = .ok (store', st', em) ∧
      (∀ upd old, p.taskData = some upd → st.taskData = some old →
        ∃ merged, st'.taskData = some merged ∧
          ∀ k, objLookup merged k =
            match objLookup upd k with
            | some v => some v
            | none => objLookup old k) ∧
      (∀ upd old, p.taskResults = some upd → st.taskResults = some old →
        ∃ merged, st'.taskResults = some merged ∧
          ∀ k, objLookup merged k =
            match objLookup upd k with
            | some v => some v
            | none => objLookup old k) := by
  obtain ⟨rec, hrec, hadj, hid⟩ := getTaskState_some hfind
  rw [updateTaskState_eq env store now id p rec hrec]
  refine ⟨_, _, _, rfl, ?_, ?_⟩
  · intro upd old hp hold
    have hrecData : (adjustTaskState rec).taskData = some old := by
      rw [hadj]; exact hold
    refine ⟨objAssign old upd, ?_, fun k => objLookup_objAssign old upd k⟩
    show (match (assembleData p (adjustTaskState rec) now).taskData with
      | some d => some d
      | none => rec.taskData) = some (objAssign old upd)
    rw [assembleData_taskData _ _ hp hrecData]
  · intro upd old hp hold
    have hrecRes : (adjustTaskState rec).taskResults = some old := by
      rw [hadj]; exact hold
    refine ⟨objAssign old upd, ?_, fun k => objLookup_objAssign old upd k⟩
    show (match (assembleData p (adjustTaskState rec) now).taskResults with
      | some d => some d
      | none => rec.taskResults) = some (objAssign old upd)
    rw [assembleData_taskResults _ _ hp]
    simp only [hrecRes]

theorem c6_witness :
    ∃ store' st' em,
      updateTaskState env0 store0 100 "t"
          { taskData := some [("mode", JVal.str "b"), ("extra", JVal.num 2)],
            taskResults := some [("n", JVal.num 5)] }
        = .ok (store', st', em) ∧
      (∀ upd old,
        (some [("mode", JVal.str "b"), ("extra", JVal.num 2)] : Option Obj)
          = some upd →
        (adjustTaskState rec0).taskData = some old →
        ∃ merged, st'.taskData = some merged ∧
          ∀ k, objLookup merged k =
            match objLookup upd k with
            | some v => some v
            | none => objLookup old k) ∧
      (∀ upd old,
        (some [("n", JVal.num 5)] : Option Obj) = some upd →
        (adjustTaskState rec0).taskResults = some old →
        ∃ merged, st'.taskResults = some merged ∧
          ∀ k, objLookup merged k =
            match objLookup upd k with
            | some v => some v
            | none => objLookup old k) :=
  c6_merge_preserves_keys env0 store0 100 "t"
    { taskData := some [("mode", JVal.str "b"), ("extra", JVal.num 2)],
      taskResults := some [("n", JVal.num 5)] }
    (adjustTaskState rec0) rfl

/-- C10: `updateTaskState` is only defined when a record with the given
id exists: where `getTaskState` signals absence with `none`, an
`updateTaskState` call on an absent id fails with an exception (it
dereferences the absent state). -/
theorem c10_update_absent_throws (env : QueueEnv) (store : Store) (now : ℤ)
    (id : String) (p : Patch)
    (habsent : getTaskState store id = none) :
    ∃ e, updateTaskState env store now id p = .error e := by
  unfold updateTaskState
  rw [habsent]
  exact ⟨_, rfl⟩

theorem c10_witness :
    ∃ e, updateTaskState env0 [] 100 "ghost" { progress := some 1 } = .error e :=
  c10_update_absent_throws env0 [] 100 "ghost" { progress := some 1 } rfl

theorem objLookup_errorResults_msg (msg : String) :
    objLookup (errorResults msg) "msg" = some (.str msg) := rfl

theorem objLookup_errorResults_severity (msg : String) :
    objLookup (errorResults msg) "severity" = some (.str "error") := rfl

/-- C3: a worker handler failure is caught and never reaches the queue
engine as a failed job; the task is finalized with `progress = 1.0`,
`completed = true` and `taskResults` carrying
`{msg: <error message>, severity: 'error'}`; and whatever a successful
handler returns, the forced `progress = 1.0` / `completed = true`
cannot be overridden. -/
theorem c3_worker_failure_finalizes (env : QueueEnv) (store : Store) (now : ℤ)
    (taskId : String) (st : TaskState)
    (hfind : getTaskState store taskId = some st) :
    ∀ handlerResult : Except String Patch,
      ∃ store' st' em,
        runWorkerJob env store now taskId handlerResult = .ok (store', st', em) ∧
        st'.progress = 1 ∧ st'.completed = true ∧
        ∀ msg, handlerResult = .error msg →
          ∃ res, st'.taskResults = some res ∧
            objLookup res "msg" = some (.str msg) ∧
            objLookup res "severity" = some (.str "error") := by
  intro handlerResult
  obtain ⟨rec, hrec, hadj, hid⟩ := getTaskState_some hfind
  have hstid : st.id = taskId := by rw [← hadj]; exact hid
  unfold runWorkerJob
  simp only [hfind]
  cases handlerResult with
  | ok r =>
    rw [hstid, updateTaskState_eq env store now taskId (finalTaskProperties r) rec hrec]
    refine ⟨_, _, _, rfl, ?_, ?_, ?_⟩
    · show (assembleData (finalTaskProperties r) (adjustTaskState rec) now).progress.getD
        rec.progress = 1
      rw [assembleData_progress]
      rfl
    · show (assembleData (finalTaskProperties r) (adjustTaskState rec) now).completed.getD
        rec.completed = true
      rw [assembleData_completed _ _
        (show (finalTaskProperties r).progress = some 1 from rfl)]
      norm_num
    · intro msg hmsg
      exact absurd hmsg (by simp)
  | error msg =>
    rw [hstid, updateTaskState_eq env store now taskId
      (finalTaskProperties { taskResults := some (errorResults msg) }) rec hrec]
    refine ⟨_, _, _, rfl, ?_, ?_, ?_⟩
    · show (assembleData (finalTaskProperties { taskResults := some (errorResults msg) })
        (adjustTaskState rec) now).progress.getD rec.progress = 1
      rw [assembleData_progress]
      rfl
    · show (assembleData (finalTaskProperties { taskResults := some (errorResults msg) })
        (adjustTaskState rec) now).completed.getD rec.completed = true
      rw [assembleData_completed _ _
        (show (finalTaskProperties { taskResults := some (errorResults msg) }).progress
          = some 1 from rfl)]
      norm_num
    · intro m hm
      injection hm with hm'
      subst hm'
      have hdata : (assembleData
          (finalTaskProperties { taskResults := some (errorResults msg) })
          (adjustTaskState rec) now).taskResults =
            some (match (adjustTaskState rec).taskResults with
                  | some old => objAssign old (errorResults msg)
                  | none => errorResults msg) :=
        assembleData_taskResults _ _ rfl
      refine ⟨(match (adjustTaskState rec).taskResults with
               | some old => objAssign old (errorResults msg)
               | none => errorResults msg), ?_, ?_, ?_⟩
      · show (match (assembleData
            (finalTaskProperties { taskResults := some (errorResults msg) })
            (adjustTaskState rec) now).taskResults with
          | some d => some d
          | none => rec.taskResults) = some _
        rw [hdata]
      · cases hr : (adjustTaskState rec).taskResults with
        | some old =>
          have h1 := objLookup_objAssign old (errorResults msg) "msg"
          simp only [objLookup_errorResults_msg] at h1
          exact h1
        | none =>
          exact objLookup_errorResults_msg msg
      · cases hr : (adjustTaskState rec).taskResults with
        | some old =>
          have h1 := objLookup_objAssign old (errorResults msg) "severity"
          simp only [objLookup_errorResults_severity] at h1
          exact h1
        | none =>
          exact objLookup_errorResults_severity msg

theorem c3_witness :
    ∃ store' st' em,
      runWorkerJob env0 store0 100 "t" (.error "boom") = .ok (store', st', em) ∧
      st'.progress = 1 ∧ st'.completed = true ∧
      ∀ msg, (Except.error "boom" : Except String Patch) = .error msg →
        ∃ res, st'.taskResults = some res ∧
          objLookup res "msg" = some (.str msg) ∧
          objLookup res "severity" = some (.str "error") :=
  c3_worker_failure_finalizes env0 store0 100 "t" (adjustTaskState rec0) rfl
    (.error "boom")

theorem notify_skipped_of_progress_eq (env : QueueEnv) (store : Store)
    (now : ℤ) (id : String) (p : Patch) (q : ℚ) (st : TaskState)
    (spec : QueueSpec)
    (hfind : getTaskState store id = some st)
    (hp : p.progress = some q)
    (hspec : env st.name = some spec)
    (heq : q * 100 = spec.jobProgress) :
    ∃ store' st' em, updateTaskState env store now id p = .ok (store', st', em) ∧
      em = false := by
  obtain ⟨rec, hrec, hadj, hid⟩ := getTaskState_some hfind
  have hname : rec.name = st.name := by rw [← hadj]; rfl
  rw [updateTaskState_eq env store now id p rec hrec]
  refine ⟨_, _, _, rfl, ?_⟩
  unfold notifyEmitted
  simp only [assembleData_progress, hp]
  by_cases hq : q = 0
  · rw [if_pos hq]
  · rw [if_neg hq]
    have hsname : (adjustTaskState
        (applyPatch rec (assembleData p (adjustTaskState rec) now) now)).name
          = st.name := by
      rw [← hname]; rfl
    simp only [hsname, hspec]
    rw [if_neg (not_not_intro heq)]

/-- C4 counterexample: the claim says supplying a progress value emits a
`queued-task-progress` notification unconditionally, even when the value
is unchanged.  Here progress 0.5 is supplied for a task whose job's
recorded native progress is already 50 (%): `job.progress()` is not
invoked (`if (progress != job._progress)`), so no `global:progress`
event and hence no `queued-task-progress` notification results, although
the queue binding is known, the listener is installed and the record
exists. -/
theorem c4_counterexample :
    (updateTaskState env0 store0 100 "t" { progress := some (1/2) }).map
      (fun r => r.2.2) = .ok false := by
  obtain ⟨s', t', em, hok, hem⟩ :=
    notify_skipped_of_progress_eq env0 store0 100 "t"
      { progress := some (1/2) } (1/2) (adjustTaskState rec0)
      { jobProgress := 50, jobTaskId := some "t", listenerInstalled := true }
      rfl rfl rfl (by norm_num)
  rw [hok, hem]
  rfl

/-- C4 amended: in the richer variant a `queued-task-progress`
notification is not emitted by `updateTaskState` itself; it results only
from mirroring the supplied progress into the Bull job, which is skipped
when the scaled progress equals the job's recorded progress.  So when
the supplied progress (times 100) equals the job's current native
progress, no notification is emitted. -/
theorem c4_no_notification_when_unchanged (env : QueueEnv) (store : Store)
    (now : ℤ) (id : String) (p : Patch) (q : ℚ) (st : TaskState)
    (spec : QueueSpec)
    (hfind : getTaskState store id = some st)
    (hp : p.progress = some q)
    (hspec : env st.name = some spec)
    (heq : q * 100 = spec.jobProgress) :
    ∃ store' st' em, updateTaskState env store now id p = .ok (store', st', em) ∧
      em = false :=
  notify_skipped_of_progress_eq env store now id p q st spec hfind hp hspec heq

theorem c4_witness :
    ∃ store' st' em,
      updateTaskState env0 store0 100 "t" { progress := some (1/2) }
        = .ok (store', st', em) ∧ em = false :=
  c4_no_notification_when_unchanged env0 store0 100 "t"
    { progress := some (1/2) } (1/2) (adjustTaskState rec0)
    { jobProgress := 50, jobTaskId := some "t", listenerInstalled := true }
    rfl rfl rfl (by norm_num)

/-- C8 counterexample: the claim says every state update recomputes
`expiresAt = now + lifespan`.  The initiation-path route stamp
`this._updateTaskState(state.id, {route})` is a state update that goes
through the raw `_updateTaskState` and leaves `expiresAt` unchanged:
here the record has `lifespan = 1000` and `expiresAt = 5000`; after the
route stamp at `now = 9000` the stored `expiresAt` is still `5000`, not
`9000 + 1000`. -/
theorem c8_counterexample :
    (stampRoute store0 9000 "t" "/task").map
        (fun r => r.1.map (fun x => x.expiresAt)) = .ok [some 5000] ∧
      some (5000 : ℤ) ≠ some ((9000 : ℤ) + rec0.lifespan) :=
  ⟨rfl, by decide⟩

/-- C8 amended: every `updateTaskState` call recomputes
`expiresAt = now + lifespan` for the stored record (whether or not the
update completes the task); the raw `_updateTaskState` used by the
initiation path to stamp `route` does not. -/
theorem c8_update_recomputes_expiry (env : QueueEnv) (store : Store)
    (now : ℤ) (id : String) (p : Patch) (st : TaskState)
    (hfind : getTaskState store id = some st) :
    ∃ store' st' em, updateTaskState env store now id p = .ok (store', st', em) ∧
      ∀ r ∈ store', r.id = id → r.expiresAt = some (now + st.lifespan) := by
  obtain ⟨rec, hrec, hadj, hid⟩ := getTaskState_some hfind
  have hlife : rec.lifespan = st.lifespan := by rw [← hadj]; rfl
  rw [updateTaskState_eq env store now id p rec hrec]
  refine ⟨_, _, _, rfl, ?_⟩
  intro r hr hrid
  simp only [List.mem_map] at hr
  obtain ⟨r0, hr0, hr0eq⟩ := hr
  by_cases h0 : r0.id = id
  · rw [if_pos h0] at hr0eq
    rw [← hr0eq]
    show (match (assembleData p (adjustTaskState rec) now).expiresAt with
      | some e => some e
      | none => r0.expiresAt) = some (now + st.lifespan)
    rw [assembleData_expiresAt]
    show some (now + rec.lifespan) = some (now + st.lifespan)
    rw [hlife]
  · rw [if_neg h0] at hr0eq
    rw [← hr0eq] at hrid
    exact absurd hrid h0

theorem c8_witness :
    ∃ store' st' em,
      updateTaskState env0 store0 9000 "t" { progress := some (3/4) }
        = .ok (store', st', em) ∧
      ∀ r ∈ store', r.id = "t" →
        r.expiresAt = some (9000 + (adjustTaskState rec0).lifespan) :=
  c8_update_recomputes_expiry env0 store0 9000 "t" { progress := some (3/4) }
    (adjustTaskState rec0) rfl

/-- C9: the client-facing task object carries only `id`, `progress`,
`taskResults`, `completed` and `timestamp` (the `RespTask` shape built by
`pick(state, responseTaskProperties)`); `taskData` and the internal
fields are never exposed, so two stores whose records for the polled id
differ only in `taskData` produce identical poll responses. -/
theorem c9_taskData_never_exposed (s1 s2 : Store) (route taskId : String)
    (timestamp : ℤ) (events : List (ℤ × TaskState)) (r1 r2 : TaskState)
    (h1 : getTaskState s1 taskId = some r1)
    (h2 : getTaskState s2 taskId = some r2)
    (hid : r1.id = r2.id) (hname : r1.name = r2.name)
    (hjob : r1.jobId = r2.jobId) (hprog : r1.progress = r2.progress)
    (hcomp : r1.completed = r2.completed) (hts : r1.timestamp = r2.timestamp)
    (hlife : r1.lifespan = r2.lifespan) (hroute : r1.route = r2.route)
    (hres : r1.taskResults = r2.taskResults) :
    pollHandler s1 route taskId timestamp events =
      pollHandler s2 route taskId timestamp events := by
  cases r1
  cases r2
  simp only at hid hname hjob hprog hcomp hts hlife hroute hres
  subst hid
  subst hname
  subst hjob
  subst hprog
  subst hcomp
  subst hts
  subst hlife
  subst hroute
  subst hres
  unfold pollHandler
  rw [h1, h2]
  rfl

theorem c9_witness :
    pollHandler store0 "/task" "t" 0 [] = pollHandler store9 "/task" "t" 0 [] :=
  c9_taskData_never_exposed store0 store9 "/task" "t" 0 []
    (adjustTaskState rec0) (adjustTaskState rec9) rfl rfl
    rfl rfl rfl rfl rfl rfl rfl rfl rfl
